import Mathlib

/-!
Shallow embedding of the proof-of-existence pallet
(`pallets/poe/src/lib.rs`): a claim registry mapping a bounded byte
sequence (fingerprint) to `(owner, block_number)`, with the three
dispatchable calls `create_claim`, `revoke_claim`, `transfer_claim`.

Modelling choices:
* bytes are `Nat` (only equality of byte sequences matters);
* `T::AccountId` is `Nat` (opaque, compared for equality);
* `BlockNumberFor<T>` is `Nat`, passed explicitly as the `now` argument
  (the source reads `frame_system::Pallet::<T>::block_number()`);
* the `Proofs` `StorageMap` is an association list with unique keys;
  `insert` overwrites an existing entry in place, `remove` deletes it;
* a dispatch error (`Err`) leaves the storage untouched, so the failing
  branches return `Except.error` carrying no state: the "map unchanged on
  failure" part of the spec is literal in the embedding;
* `T::MaxClaimLength::get()` is an explicit `maxClaimLength : Nat`
  parameter.
-/

namespace Poe

/-- A fingerprint: the raw byte sequence of the `claim` argument. -/
abbrev Fingerprint := List Nat

/-- An account identity (`T::AccountId`). -/
abbrev AccountId := Nat

/-- A block number (`BlockNumberFor<T>`), used as the claim timestamp. -/
abbrev BlockNumber := Nat

/-- The `Error<T>` enum of the pallet. -/
inductive Error where
  | ProofAlreadyExist
  | ClaimLengthTooLarge
  | ClaimNotExist
  | NotClaimOwner
deriving DecidableEq, Repr

/-- The `Proofs` storage map: fingerprint → (owner, block number). -/
abbrev Proofs := List (Fingerprint × (AccountId × BlockNumber))

/-- `Proofs::<T>::get(&claim)`: the value stored under the key, if any. -/
def getKey : Proofs → Fingerprint → Option (AccountId × BlockNumber)
  | [], _ => none
  | e :: t, k => if e.1 = k then some e.2 else getKey t k

/-- `Proofs::<T>::contains_key(&claim)`. -/
def containsKey (s : Proofs) (k : Fingerprint) : Bool :=
  (getKey s k).isSome

/-- `Proofs::<T>::insert(&claim, v)`: overwrite the entry if the key is
present, otherwise add a fresh entry. -/
def insertKey : Proofs → Fingerprint → AccountId × BlockNumber → Proofs
  | [], k, v => [(k, v)]
  | e :: t, k, v => if e.1 = k then (k, v) :: t else e :: insertKey t k v

/-- `Proofs::<T>::remove(&claim)`: delete every entry under the key. -/
def removeKey : Proofs → Fingerprint → Proofs
  | [], _ => []
  | e :: t, k => if e.1 = k then removeKey t k else e :: removeKey t k

/-- `create_claim`: length check, then existence check, then insert.
The checks appear in exactly the source order (`ensure!` length, then
`ensure!` non-existence). -/
def create_claim (maxClaimLength : Nat) (sender : AccountId)
    (claim : Fingerprint) (now : BlockNumber) (s : Proofs) :
    Except Error Proofs :=
  if claim.length ≤ maxClaimLength then
    if containsKey s claim then .error .ProofAlreadyExist
    else .ok (insertKey s claim (sender, now))
  else .error .ClaimLengthTooLarge

/-- `revoke_claim`: `get ... ok_or ClaimNotExist`, then the owner check,
then remove. -/
def revoke_claim (sender : AccountId) (claim : Fingerprint) (s : Proofs) :
    Except Error Proofs :=
  match getKey s claim with
  | none => .error .ClaimNotExist
  | some (owner, _) =>
    if owner = sender then .ok (removeKey s claim)
    else .error .NotClaimOwner

/-- `transfer_claim`: `get ... ok_or ClaimNotExist`, then the owner check,
then insert `(target, block_number)` under the same key. -/
def transfer_claim (sender : AccountId) (claim : Fingerprint)
    (target : AccountId) (now : BlockNumber) (s : Proofs) :
    Except Error Proofs :=
  match getKey s claim with
  | none => .error .ClaimNotExist
  | some (owner, _) =>
    if owner = sender then .ok (insertKey s claim (target, now))
    else .error .NotClaimOwner

/-- The `claim` argument of the dispatchable calls has type
`BoundedVec<u8, T::MaxClaimLength>`: a byte sequence whose length is at
most `maxLen` by construction. -/
structure BoundedVec (maxLen : Nat) where
  data : Fingerprint
  bounded : data.length ≤ maxLen

/-- The public entry point of `create_claim`: its argument is the
`BoundedVec`, whose underlying bytes the body checks and stores. -/
def create_claim_call (maxClaimLength : Nat) (sender : AccountId)
    (claim : BoundedVec maxClaimLength) (now : BlockNumber) (s : Proofs) :
    Except Error Proofs :=
  create_claim maxClaimLength sender claim.data now s

/-- States reachable from the empty map by successful dispatch calls. -/
inductive Reachable (maxClaimLength : Nat) : Proofs → Prop where
  | empty : Reachable maxClaimLength []
  | create {s s' sender claim now} : Reachable maxClaimLength s →
      create_claim maxClaimLength sender claim now s = .ok s' →
      Reachable maxClaimLength s'
  | revoke {s s' sender claim} : Reachable maxClaimLength s →
      revoke_claim sender claim s = .ok s' →
      Reachable maxClaimLength s'
  | transfer {s s' sender claim target now} : Reachable maxClaimLength s →
      transfer_claim sender claim target now s = .ok s' →
      Reachable maxClaimLength s'

/-! ### Basic lemmas about the storage-map operations -/

theorem containsKey_iff_getKey (s : Proofs) (k : Fingerprint) :
    containsKey s k = true ↔ (getKey s k).isSome = true := Iff.rfl

theorem getKey_eq_none_of_not_contains {s : Proofs} {k : Fingerprint}
    (h : containsKey s k = false) : getKey s k = none := by
  cases hg : getKey s k with
  | none => rfl
  | some v => simp [containsKey, hg] at h

theorem getKey_insertKey_self (s : Proofs) (k : Fingerprint)
    (v : AccountId × BlockNumber) : getKey (insertKey s k v) k = some v := by
  induction s with
  | nil => simp [insertKey, getKey]
  | cons e t ih =>
    by_cases h : e.1 = k
    · simp [insertKey, getKey, h]
    · simpa [insertKey, getKey, h] using ih

theorem getKey_insertKey_ne (s : Proofs) {k k' : Fingerprint}
    (v : AccountId × BlockNumber) (hne : ¬ k' = k) :
    getKey (insertKey s k v) k' = getKey s k' := by
  have hkk' : ¬ k = k' := fun hh => hne hh.symm
  induction s with
  | nil => simp [insertKey, getKey, hkk']
  | cons e t ih =>
    by_cases h : e.1 = k
    · have h2 : ¬ e.1 = k' := by rw [h]; exact hkk'
      simp [insertKey, getKey, h, h2, hkk']
    · by_cases h2 : e.1 = k'
      · simp [insertKey, getKey, h, h2, hne]
      · simpa [insertKey, getKey, h, h2] using ih

theorem getKey_removeKey_self (s : Proofs) (k : Fingerprint) :
    getKey (removeKey s k) k = none := by
  induction s with
  | nil => rfl
  | cons e t ih =>
    by_cases h : e.1 = k
    · simpa [removeKey, h] using ih
    · simpa [removeKey, getKey, h] using ih

theorem containsKey_removeKey_self (s : Proofs) (k : Fingerprint) :
    containsKey (removeKey s k) k = false := by
  simp [containsKey, getKey_removeKey_self]

theorem getKey_removeKey_ne (s : Proofs) {k k' : Fingerprint}
    (hne : ¬ k' = k) : getKey (removeKey s k) k' = getKey s k' := by
  have hkk' : ¬ k = k' := fun hh => hne hh.symm
  induction s with
  | nil => rfl
  | cons e t ih =>
    by_cases h : e.1 = k
    · have h2 : ¬ e.1 = k' := by rw [h]; exact hkk'
      simpa [removeKey, getKey, h, h2, hkk'] using ih
    · by_cases h2 : e.1 = k'
      · simp [removeKey, getKey, h, h2, hne]
      · simpa [removeKey, getKey, h, h2] using ih

theorem mem_insertKey {s : Proofs} {k : Fingerprint}
    {v : AccountId × BlockNumber} {e : Fingerprint × (AccountId × BlockNumber)}
    (h : e ∈ insertKey s k v) : e ∈ s ∨ e = (k, v) := by
  induction s with
  | nil =>
    simp [insertKey] at h
    exact Or.inr h
  | cons a t ih =>
    by_cases ha : a.1 = k
    · rw [insertKey, if_pos ha] at h
      rcases List.mem_cons.mp h with h1 | h1
      · exact Or.inr h1
      · exact Or.inl (List.mem_cons_of_mem a h1)
    · rw [insertKey, if_neg ha] at h
      rcases List.mem_cons.mp h with h1 | h1
      · exact Or.inl (h1 ▸ List.mem_cons_self a t)
      · rcases ih h1 with h2 | h2
        · exact Or.inl (List.mem_cons_of_mem a h2)
        · exact Or.inr h2

theorem mem_removeKey {s : Proofs} {k : Fingerprint}
    {e : Fingerprint × (AccountId × BlockNumber)}
    (h : e ∈ removeKey s k) : e ∈ s := by
  induction s with
  | nil => simp [removeKey] at h
  | cons a t ih =>
    by_cases ha : a.1 = k
    · rw [removeKey, if_pos ha] at h
      exact List.mem_cons_of_mem a (ih h)
    · rw [removeKey, if_neg ha] at h
      rcases List.mem_cons.mp h with h1 | h1
      · exact h1 ▸ List.mem_cons_self a t
      · exact List.mem_cons_of_mem a (ih h1)

theorem mem_of_getKey {s : Proofs} {k : Fingerprint}
    {v : AccountId × BlockNumber} (h : getKey s k = some v) : (k, v) ∈ s := by
  induction s with
  | nil => simp [getKey] at h
  | cons a t ih =>
    obtain ⟨k0, v0⟩ := a
    by_cases ha : k0 = k
    · simp [getKey, ha] at h
      subst ha; subst h
      exact List.mem_cons_self _ _
    · rw [getKey, if_neg ha] at h
      exact List.mem_cons_of_mem _ (ih h)

/-! ### Inversion of the successful operations -/

theorem create_claim_ok_inv {maxClaimLength : Nat} {sender : AccountId}
    {claim : Fingerprint} {now : BlockNumber} {s s' : Proofs}
    (h : create_claim maxClaimLength sender claim now s = .ok s') :
    claim.length ≤ maxClaimLength ∧ containsKey s claim = false ∧
      s' = insertKey s claim (sender, now) := by
  by_cases h1 : claim.length ≤ maxClaimLength
  · cases hc : containsKey s claim with
    | true => simp [create_claim, h1, hc] at h
    | false =>
      have : insertKey s claim (sender, now) = s' := by
        simpa [create_claim, h1, hc] using h
      exact ⟨h1, rfl, this.symm⟩
  · simp [create_claim, h1] at h

theorem revoke_claim_ok_inv {sender : AccountId} {claim : Fingerprint}
    {s s' : Proofs} (h : revoke_claim sender claim s = .ok s') :
    (∃ t, getKey s claim = some (sender, t)) ∧ s' = removeKey s claim := by
  cases hg : getKey s claim with
  | none => simp [revoke_claim, hg] at h
  | some v =>
    obtain ⟨owner, t⟩ := v
    by_cases ho : owner = sender
    · subst ho
      have : removeKey s claim = s' := by
        simpa [revoke_claim, hg] using h
      exact ⟨⟨t, rfl⟩, this.symm⟩
    · simp [revoke_claim, hg, ho] at h

theorem transfer_claim_ok_inv {sender target : AccountId}
    {claim : Fingerprint} {now : BlockNumber} {s s' : Proofs}
    (h : transfer_claim sender claim target now s = .ok s') :
    (∃ t, getKey s claim = some (sender, t)) ∧
      s' = insertKey s claim (target, now) := by
  cases hg : getKey s claim with
  | none => simp [transfer_claim, hg] at h
  | some v =>
    obtain ⟨owner, t⟩ := v
    by_cases ho : owner = sender
    · subst ho
      have : insertKey s claim (target, now) = s' := by
        simpa [transfer_claim, hg] using h
      exact ⟨⟨t, rfl⟩, this.symm⟩
    · simp [transfer_claim, hg, ho] at h

/-! ### Claim theorems -/

/-- C1: for every state reachable from the empty map by successful
`create_claim`, `revoke_claim`, `transfer_claim` calls, every key of the
`Proofs` map has byte-length at most `MaxClaimLength`, and a fingerprint
is a key of the map iff it has an active, unrevoked claim (a stored
owner/timestamp pair). -/
theorem registry_reachable_invariant (maxClaimLength : Nat) (s : Proofs)
    (h : Reachable maxClaimLength s) :
    (∀ e ∈ s, e.1.length ≤ maxClaimLength) ∧
    (∀ f, containsKey s f = true ↔ ∃ o t, getKey s f = some (o, t)) := by
  constructor
  · induction h with
    | empty => intro e he; simp at he
    | create hr hok ih =>
      obtain ⟨hlen, _, rfl⟩ := create_claim_ok_inv hok
      intro e he
      rcases mem_insertKey he with h1 | h1
      · exact ih e h1
      · rw [h1]; exact hlen
    | revoke hr hok ih =>
      obtain ⟨_, rfl⟩ := revoke_claim_ok_inv hok
      intro e he
      exact ih e (mem_removeKey he)
    | transfer hr hok ih =>
      obtain ⟨⟨t0, hg⟩, rfl⟩ := transfer_claim_ok_inv hok
      intro e he
      rcases mem_insertKey he with h1 | h1
      · exact ih e h1
      · have hlen := ih _ (mem_of_getKey hg)
        rw [h1]
        simpa using hlen
  · intro f
    constructor
    · intro hc
      cases hg : getKey s f with
      | none => simp [containsKey, hg] at hc
      | some v => exact ⟨v.1, v.2, rfl⟩
    · rintro ⟨o, t, hg⟩
      simp [containsKey, hg]

/-- Witness for C1 at the concrete state reached by one successful
`create_claim` from the empty map. -/
theorem registry_reachable_invariant_witness :
    (∀ e ∈ ([([1, 2], (1, 5))] : Proofs), e.1.length ≤ 10) ∧
    (∀ f, containsKey ([([1, 2], (1, 5))] : Proofs) f = true ↔
      ∃ o t, getKey ([([1, 2], (1, 5))] : Proofs) f = some (o, t)) :=
  registry_reachable_invariant 10 [([1, 2], (1, 5))]
    (@Reachable.create 10 [] [([1, 2], (1, 5))] 1 [1, 2] 5
      Reachable.empty rfl)

/-- C2: when the stored owner of `f` equals the caller, `transfer_claim`
succeeds; afterwards the entry for `f` is `(target, now)` — owner
replaced, timestamp refreshed — and the key `f` itself is unchanged.
`target` is arbitrary, so the statement covers `target = caller`. -/
theorem transfer_claim_correct (s : Proofs) (caller target : AccountId)
    (f : Fingerprint) (now t0 : BlockNumber)
    (h : getKey s f = some (caller, t0)) :
    transfer_claim caller f target now s = .ok (insertKey s f (target, now)) ∧
    getKey (insertKey s f (target, now)) f = some (target, now) :=
  ⟨by simp [transfer_claim, h], getKey_insertKey_self s f (target, now)⟩

/-- Witness for C2: a self-transfer (`target = caller`) on a concrete
one-entry map, refreshing the timestamp from 5 to 7. -/
theorem transfer_claim_correct_witness :
    transfer_claim 1 [1, 2] 1 7 [([1, 2], (1, 5))] =
      .ok (insertKey [([1, 2], (1, 5))] [1, 2] (1, 7)) ∧
    getKey (insertKey [([1, 2], (1, 5))] [1, 2] (1, 7)) [1, 2] =
      some (1, 7) :=
  transfer_claim_correct [([1, 2], (1, 5))] 1 1 [1, 2] 7 5 rfl

/-- C3: after a successful `create_claim(c1, f, t1)`, a second
`create_claim(c2, f, t2)` fails with `ProofAlreadyExist` for any `c2`,
`t2`, and the stored claim for `f` is still `(c1, t1)` (a failing call
returns only an error and leaves the map untouched). -/
theorem create_claim_duplicate_fails (maxClaimLength : Nat)
    (c1 c2 : AccountId) (f : Fingerprint) (t1 t2 : BlockNumber)
    (s s' : Proofs) (h : create_claim maxClaimLength c1 f t1 s = .ok s') :
    create_claim maxClaimLength c2 f t2 s' = .error .ProofAlreadyExist ∧
    getKey s' f = some (c1, t1) := by
  obtain ⟨hlen, hnc, rfl⟩ := create_claim_ok_inv h
  have hget : getKey (insertKey s f (c1, t1)) f = some (c1, t1) :=
    getKey_insertKey_self s f (c1, t1)
  have hck : containsKey (insertKey s f (c1, t1)) f = true := by
    simp [containsKey, hget]
  exact ⟨by simp [create_claim, hlen, hck], hget⟩

/-- Witness for C3: `create(1, [1,2], 5)` on the empty map succeeds, and
`create(2, [1,2], 9)` on the result fails with `ProofAlreadyExist`. -/
theorem create_claim_duplicate_fails_witness :
    create_claim 10 2 [1, 2] 9 [([1, 2], (1, 5))] =
      .error .ProofAlreadyExist ∧
    getKey [([1, 2], (1, 5))] [1, 2] = some (1, 5) :=
  create_claim_duplicate_fails 10 1 2 [1, 2] 5 9 [] [([1, 2], (1, 5))] rfl

/-- C4: when `f` is stored with owner `owner` and `other ≠ owner`,
`revoke_claim(other, f)` fails with `NotClaimOwner` and `f` remains
claimed by `owner` with its original timestamp (the failing call returns
only an error and leaves the map untouched). -/
theorem revoke_claim_not_owner (s : Proofs) (owner other : AccountId)
    (f : Fingerprint) (t : BlockNumber)
    (hg : getKey s f = some (owner, t)) (hne : ¬ owner = other) :
    revoke_claim other f s = .error .NotClaimOwner ∧
    getKey s f = some (owner, t) :=
  ⟨by simp [revoke_claim, hg, hne], hg⟩

/-- Witness for C4: account 2 cannot revoke the claim owned by 1. -/
theorem revoke_claim_not_owner_witness :
    revoke_claim 2 [1, 2] [([1, 2], (1, 5))] = .error .NotClaimOwner ∧
    getKey [([1, 2], (1, 5))] [1, 2] = some (1, 5) :=
  revoke_claim_not_owner [([1, 2], (1, 5))] 1 2 [1, 2] 5 rfl (by decide)

/-- C5: validation order. A too-long fingerprint that also already exists
makes `create_claim` fail with `ClaimLengthTooLarge` (length check before
existence check); a missing fingerprint makes `revoke_claim` and
`transfer_claim` fail with `ClaimNotExist` regardless of the caller
(existence check before ownership check). -/
theorem validation_order (maxClaimLength : Nat) (sender target : AccountId)
    (f : Fingerprint) (now : BlockNumber) (s : Proofs) :
    (maxClaimLength < f.length → containsKey s f = true →
      create_claim maxClaimLength sender f now s =
        .error .ClaimLengthTooLarge) ∧
    (getKey s f = none →
      revoke_claim sender f s = .error .ClaimNotExist ∧
      transfer_claim sender f target now s = .error .ClaimNotExist) := by
  constructor
  · intro hlen _
    simp [create_claim, not_le.mpr hlen]
  · intro hg
    exact ⟨by simp [revoke_claim, hg], by simp [transfer_claim, hg]⟩

/-- Witness for C5: an 11-byte fingerprint already present in the map
(with `MaxClaimLength = 10`) fails with the length error, not the
existence error; and `revoke`/`transfer` of an absent key fail with the
existence error for a caller who owns nothing. -/
theorem validation_order_witness :
    create_claim 10 1 [0, 0, 0, 0, 0, 0, 0, 0, 0, 0, 0] 7
        [([0, 0, 0, 0, 0, 0, 0, 0, 0, 0, 0], (1, 1))] =
      .error .ClaimLengthTooLarge ∧
    (revoke_claim 1 [9] [([0, 0, 0, 0, 0, 0, 0, 0, 0, 0, 0], (1, 1))] =
        .error .ClaimNotExist ∧
      transfer_claim 1 [9] 2 7 [([0, 0, 0, 0, 0, 0, 0, 0, 0, 0, 0], (1, 1))] =
        .error .ClaimNotExist) :=
  ⟨(validation_order 10 1 2 [0, 0, 0, 0, 0, 0, 0, 0, 0, 0, 0] 7
      [([0, 0, 0, 0, 0, 0, 0, 0, 0, 0, 0], (1, 1))]).1 (by decide) (by decide),
   (validation_order 10 1 2 [9] 7
      [([0, 0, 0, 0, 0, 0, 0, 0, 0, 0, 0], (1, 1))]).2 rfl⟩

/-- C6: for every caller, timestamp, state, and fingerprint longer than
`MaxClaimLength`, `create_claim` fails with `ClaimLengthTooLarge` (and,
failing, returns no new map). -/
theorem create_claim_too_large (maxClaimLength : Nat) (sender : AccountId)
    (f : Fingerprint) (now : BlockNumber) (s : Proofs)
    (h : maxClaimLength < f.length) :
    create_claim maxClaimLength sender f now s =
      .error .ClaimLengthTooLarge := by
  simp [create_claim, not_le.mpr h]

/-- Witness for C6: an 11-byte fingerprint with `MaxClaimLength = 10`. -/
theorem create_claim_too_large_witness :
    create_claim 10 1 [0, 0, 0, 0, 0, 0, 0, 0, 0, 0, 0] 7 [] =
      .error .ClaimLengthTooLarge :=
  create_claim_too_large 10 1 [0, 0, 0, 0, 0, 0, 0, 0, 0, 0, 0] 7 []
    (by decide)

/-- C7: for every fingerprint that is not a key of the map, both
`revoke_claim` and `transfer_claim` fail with `ClaimNotExist`, for any
caller and target (and, failing, return no new map). -/
theorem not_a_key_not_exist (sender target : AccountId) (f : Fingerprint)
    (now : BlockNumber) (s : Proofs) (h : containsKey s f = false) :
    revoke_claim sender f s = .error .ClaimNotExist ∧
    transfer_claim sender f target now s = .error .ClaimNotExist := by
  have hg : getKey s f = none := getKey_eq_none_of_not_contains h
  exact ⟨by simp [revoke_claim, hg], by simp [transfer_claim, hg]⟩

/-- Witness for C7: the never-inserted key `[3]` in a one-entry map. -/
theorem not_a_key_not_exist_witness :
    revoke_claim 1 [3] [([1, 2], (1, 5))] = .error .ClaimNotExist ∧
    transfer_claim 1 [3] 2 7 [([1, 2], (1, 5))] = .error .ClaimNotExist :=
  not_a_key_not_exist 1 2 [3] 7 [([1, 2], (1, 5))] rfl

/-- C8: after a successful `create_claim(owner, f, t1)`, the owner's
`revoke_claim` succeeds and removes `f` from the map, and a subsequent
`create_claim(anyone, f, t2)` by any caller succeeds. -/
theorem revoked_fingerprint_reusable (maxClaimLength : Nat)
    (owner anyone : AccountId) (f : Fingerprint) (t1 t2 : BlockNumber)
    (s s' : Proofs) (h : create_claim maxClaimLength owner f t1 s = .ok s') :
    revoke_claim owner f s' = .ok (removeKey s' f) ∧
    containsKey (removeKey s' f) f = false ∧
    create_claim maxClaimLength anyone f t2 (removeKey s' f) =
      .ok (insertKey (removeKey s' f) f (anyone, t2)) := by
  obtain ⟨hlen, hnc, rfl⟩ := create_claim_ok_inv h
  have hget : getKey (insertKey s f (owner, t1)) f = some (owner, t1) :=
    getKey_insertKey_self s f (owner, t1)
  have hc := containsKey_removeKey_self (insertKey s f (owner, t1)) f
  exact ⟨by simp [revoke_claim, hget], hc, by simp [create_claim, hlen, hc]⟩

/-- Witness for C8: create by 1, revoke by 1, re-create by 2, all on the
fingerprint `[1, 2]` starting from the empty map. -/
theorem revoked_fingerprint_reusable_witness :
    revoke_claim 1 [1, 2] [([1, 2], (1, 5))] =
      .ok (removeKey [([1, 2], (1, 5))] [1, 2]) ∧
    containsKey (removeKey [([1, 2], (1, 5))] [1, 2]) [1, 2] = false ∧
    create_claim 10 2 [1, 2] 9 (removeKey [([1, 2], (1, 5))] [1, 2]) =
      .ok (insertKey (removeKey [([1, 2], (1, 5))] [1, 2]) [1, 2] (2, 9)) :=
  revoked_fingerprint_reusable 10 1 2 [1, 2] 5 9 [] [([1, 2], (1, 5))] rfl

/-- C9: frame property. A successful `create_claim`, `revoke_claim` or
`transfer_claim` leaves every entry whose key differs from the
fingerprint argument unchanged; a failed call returns only an error and
no new map, so it changes no entry at all. -/
theorem frame_property (maxClaimLength : Nat) (sender target : AccountId)
    (f k : Fingerprint) (now : BlockNumber) (s s' : Proofs)
    (hne : ¬ k = f) :
    (create_claim maxClaimLength sender f now s = .ok s' →
      getKey s' k = getKey s k) ∧
    (revoke_claim sender f s = .ok s' → getKey s' k = getKey s k) ∧
    (transfer_claim sender f target now s = .ok s' →
      getKey s' k = getKey s k) := by
  refine ⟨?_, ?_, ?_⟩
  · intro h
    obtain ⟨_, _, rfl⟩ := create_claim_ok_inv h
    exact getKey_insertKey_ne s _ hne
  · intro h
    obtain ⟨_, rfl⟩ := revoke_claim_ok_inv h
    exact getKey_removeKey_ne s hne
  · intro h
    obtain ⟨_, rfl⟩ := transfer_claim_ok_inv h
    exact getKey_insertKey_ne s _ hne

/-- Witness for C9: each of the three operations run on a concrete map
containing the untouched entry `([3], (2, 6))`. -/
theorem frame_property_witness :
    getKey [([3], (2, 6)), ([1, 2], (1, 5))] [3] =
      getKey [([3], (2, 6))] [3] ∧
    getKey [([3], (2, 6))] [3] =
      getKey [([1, 2], (1, 5)), ([3], (2, 6))] [3] ∧
    getKey [([1, 2], (2, 7)), ([3], (2, 6))] [3] =
      getKey [([1, 2], (1, 5)), ([3], (2, 6))] [3] :=
  ⟨(frame_property 10 1 2 [1, 2] [3] 5 [([3], (2, 6))]
      [([3], (2, 6)), ([1, 2], (1, 5))] (by decide)).1 rfl,
   (frame_property 10 1 2 [1, 2] [3] 7 [([1, 2], (1, 5)), ([3], (2, 6))]
      [([3], (2, 6))] (by decide)).2.1 rfl,
   (frame_property 10 1 2 [1, 2] [3] 7 [([1, 2], (1, 5)), ([3], (2, 6))]
      [([1, 2], (2, 7)), ([3], (2, 6))] (by decide)).2.2 rfl⟩

/-- C10: at the public interface the `claim` argument is a
`BoundedVec`, whose length is at most `MaxClaimLength` by construction,
so the explicit length check in `create_claim` always passes: the call
equals the body with the `ClaimLengthTooLarge` branch eliminated, hence
that error is unreachable. -/
theorem create_claim_call_length_check_passes (maxClaimLength : Nat)
    (sender : AccountId) (claim : BoundedVec maxClaimLength)
    (now : BlockNumber) (s : Proofs) :
    create_claim_call maxClaimLength sender claim now s =
      (if containsKey s claim.data then .error Error.ProofAlreadyExist
       else .ok (insertKey s claim.data (sender, now))) := by
  unfold create_claim_call create_claim
  rw [if_pos claim.bounded]

end Poe
